import Mathlib

/-!
# FirmwareUpdateService (WolkGatewayModule-Cpp)

A shallow embedding of `src/service/FirmwareUpdateService.cpp`.

The service is stateful only through its collaborators, so the embedding passes an explicit
`ServiceState` that records, in call order, every call the service makes on a collaborator
(`trace`), the commands waiting in its command buffer (`commandBuffer`) and the warnings it logs
(`warnings`).  The collaborators the service is constructed with (the firmware update protocol,
the connectivity service, the file system) are the fields of `Env`.

The two lambdas the source pushes to the command buffer are defunctionalised into the two
constructors of `Command`; `Command.run` is the body of the lambda.
-/

namespace wolkabout

/-! ## Data model -/

/-- Message of `model/Message.h`: a channel and a content. -/
structure Message where
  channel : String
  content : String
deriving DecidableEq, Repr

/-- Modelled from the spec: the enumeration `FirmwareUpdateCommand::Type` of
`model/FirmwareUpdateCommand.h`, which is not among the sources.  The four named enumerators are
those of the spec and of the `switch` in `handleFirmwareUpdateCommand`; `other raw` stands for
any value of the enumeration that is none of them (the `default:` label of that `switch`). -/
inductive FirmwareUpdateCommandType where
  | FILE_UPLOAD
  | URL_DOWNLOAD
  | INSTALL
  | ABORT
  | other (raw : Nat)
deriving DecidableEq, Repr

/-- Modelled from the spec: the class `FirmwareUpdateCommand` of `model/FirmwareUpdateCommand.h`
(not among the sources), with the three getters the service uses: `getType`, `getUrl` and
`getAutoInstall`, the last two optional. -/
structure FirmwareUpdateCommand where
  type : FirmwareUpdateCommandType
  url : Option String
  autoInstall : Option Bool
deriving DecidableEq, Repr

namespace FirmwareUpdateResponse

/-- Modelled from the spec: the enumeration `FirmwareUpdateResponse::Status`. -/
inductive Status where
  | FILE_READY
  | INSTALLATION
  | COMPLETED
  | ERROR
deriving DecidableEq, Repr

/-- Modelled from the spec: the enumeration `FirmwareUpdateResponse::ErrorCode`; the spec names
`UNSPECIFIED_ERROR` and `FILE_SYSTEM_ERROR` and leaves the others open (`other raw`). -/
inductive ErrorCode where
  | UNSPECIFIED_ERROR
  | FILE_SYSTEM_ERROR
  | other (raw : Nat)
deriving DecidableEq, Repr

end FirmwareUpdateResponse

/-- Modelled from the spec: the class `FirmwareUpdateResponse` of `model/FirmwareUpdateResponse.h`
(not among the sources): a status and an optional error code.  `FirmwareUpdateResponse{status}`
of the source is `⟨status, none⟩`, `FirmwareUpdateResponse{status, code}` is
`⟨status, some code⟩`. -/
structure FirmwareUpdateResponse where
  status : FirmwareUpdateResponse.Status
  errorCode : Option FirmwareUpdateResponse.ErrorCode
deriving DecidableEq, Repr

namespace LocalFileDownloader

/-- Modelled from the spec: the enumeration `LocalFileDownloader::ErrorCode` declared in
`service/FirmwareUpdateService.h` (not among the sources).  `other raw` stands for any value
that is neither named enumerator (the `default:` label in `downloadFailed`). -/
inductive ErrorCode where
  | FILE_DOES_NOT_EXIST
  | UNSPECIFIED_ERROR
  | other (raw : Nat)
deriving DecidableEq, Repr

end LocalFileDownloader

/-- The interface `FirmwareUpdateProtocol` the service is constructed with (`m_protocol`); the
four member functions the service calls. `makeMessage` returning `none` is the null pointer. -/
structure FirmwareUpdateProtocol where
  isFirmwareUpdateMessage : Message → Bool
  makeFirmwareUpdateCommand : Message → Option FirmwareUpdateCommand
  extractDeviceKeyFromChannel : String → String
  makeMessage : String → FirmwareUpdateResponse → Option Message

/-- The collaborators the service code calls and whose code is not the service's own:
the protocol, `ConnectivityService::publish` (its boolean result) and
`FileSystemUtils::isFilePresent`. -/
structure Env where
  protocol : FirmwareUpdateProtocol
  publish : Message → Bool
  isFilePresent : String → Bool

/-- One call of the service on a collaborator, or of its own install step. -/
inductive Event where
  /-- The call `m_protocol.makeMessage(deviceKey, response)` in `sendResponse`: the service
  issues `response` for `deviceKey`. -/
  | makeMessage (deviceKey : String) (response : FirmwareUpdateResponse)
  /-- The call `m_connectivityService.publish(message)` in `sendResponse`. -/
  | publish (message : Message)
  /-- The call `m_fileDownloader.download(url, ..)` in `urlDownload`. -/
  | download (url : String)
  /-- The call of `FirmwareUpdateService::install(deviceKey, firmwareFilePath)`. -/
  | install (deviceKey : String) (firmwareFilePath : String)
  /-- A call of `FirmwareInstaller::install` on `m_firmwareInstaller` with these two
  arguments.  No function of the service makes it. -/
  | installerInstall (deviceKey : String) (firmwareFile : String)
deriving DecidableEq, Repr

/-- The two closures the service pushes to its command buffer, as values carrying what the
closure captures by copy (`[=]`). -/
inductive Command where
  /-- The closure of `messageReceived`: `[=] { handleFirmwareUpdateCommand(dfuCommand, deviceKey); }`. -/
  | handle (dfuCommand : FirmwareUpdateCommand) (deviceKey : String)
  /-- The closure of `downloadCompleted`, capturing `filePath`, `deviceKey` and `autoInstall`. -/
  | completed (filePath : String) (deviceKey : String) (autoInstall : Bool)
deriving DecidableEq, Repr

/-- What the service has done so far and what it still has to do. -/
structure ServiceState where
  trace : List Event
  commandBuffer : List Command
  warnings : List String
deriving DecidableEq, Repr

namespace ServiceState

/-- A service that has done nothing yet. -/
def fresh : ServiceState := ⟨[], [], []⟩

/-- Append a call to the trace. -/
def record (s : ServiceState) (e : Event) : ServiceState :=
  { s with trace := s.trace ++ [e] }

/-- The statement `LOG(WARN) << text`. -/
def warn (s : ServiceState) (text : String) : ServiceState :=
  { s with warnings := s.warnings ++ [text] }

end ServiceState

/-! ## The service -/

/-- The function `FirmwareUpdateService::sendResponse`. -/
def sendResponse (env : Env) (response : FirmwareUpdateResponse) (deviceKey : String)
    (s : ServiceState) : ServiceState :=
  let s := s.record (Event.makeMessage deviceKey response)
  match env.protocol.makeMessage deviceKey response with
  | none => s.warn "Failed to create firmware update response"
  | some message =>
    let s := s.record (Event.publish message)
    if env.publish message then s
    else s.warn ("Firmware update response not published for device: " ++ deviceKey)

/-- The function `FirmwareUpdateService::install`: its body is empty, so all that happens is the
call itself. -/
def install (deviceKey : String) (firmwareFilePath : String) (s : ServiceState) :
    ServiceState :=
  s.record (Event.install deviceKey firmwareFilePath)

/-- The function `FirmwareUpdateService::addToCommandBuffer`:
`m_commandBuffer.pushCommand(..)` puts the command at the back of the queue. -/
def addToCommandBuffer (command : Command) (s : ServiceState) : ServiceState :=
  { s with commandBuffer := s.commandBuffer ++ [command] }

/-- The function `FirmwareUpdateService::downloadCompleted`: it only enqueues a closure. -/
def downloadCompleted (filePath : String) (deviceKey : String) (autoInstall : Bool)
    (s : ServiceState) : ServiceState :=
  addToCommandBuffer (Command.completed filePath deviceKey autoInstall) s

/-- The function `FirmwareUpdateService::downloadFailed`. -/
def downloadFailed (env : Env) (errorCode : LocalFileDownloader.ErrorCode) (deviceKey : String)
    (s : ServiceState) : ServiceState :=
  match errorCode with
  | LocalFileDownloader.ErrorCode.FILE_DOES_NOT_EXIST =>
    sendResponse env ⟨FirmwareUpdateResponse.Status.ERROR,
      some FirmwareUpdateResponse.ErrorCode.FILE_SYSTEM_ERROR⟩ deviceKey s
  | _ =>
    sendResponse env ⟨FirmwareUpdateResponse.Status.ERROR,
      some FirmwareUpdateResponse.ErrorCode.UNSPECIFIED_ERROR⟩ deviceKey s

/-- The function `FirmwareUpdateService::LocalFileDownloader::download`.  There is no `return`
and no `else` after `onSuccess(filePath)`: `onFail` is called on every path. -/
def LocalFileDownloader.download (env : Env) (filePath : String)
    (onSuccess : String → ServiceState → ServiceState)
    (onFail : LocalFileDownloader.ErrorCode → ServiceState → ServiceState)
    (s : ServiceState) : ServiceState :=
  let s := if env.isFilePresent filePath then onSuccess filePath s else s
  onFail LocalFileDownloader.ErrorCode.FILE_DOES_NOT_EXIST s

/-- The function `FirmwareUpdateService::urlDownload`. -/
def urlDownload (env : Env) (deviceKey : String) (url : String) (autoInstall : Bool)
    (s : ServiceState) : ServiceState :=
  LocalFileDownloader.download env url
    (fun filePath => downloadCompleted filePath deviceKey autoInstall)
    (fun errorCode => downloadFailed env errorCode deviceKey)
    (s.record (Event.download url))

/-- The function `FirmwareUpdateService::handleFirmwareUpdateCommand`. -/
def handleFirmwareUpdateCommand (env : Env) (command : FirmwareUpdateCommand)
    (deviceKey : String) (s : ServiceState) : ServiceState :=
  match command.type with
  | FirmwareUpdateCommandType.FILE_UPLOAD =>
    s.warn "Unsupported subdevice download protocol: FILE_UPLOAD"
  | FirmwareUpdateCommandType.URL_DOWNLOAD =>
    match command.url with
    | none =>
      sendResponse env ⟨FirmwareUpdateResponse.Status.ERROR,
        some FirmwareUpdateResponse.ErrorCode.UNSPECIFIED_ERROR⟩ deviceKey
        (s.warn "Missing url from firmware update command")
    | some url =>
      if url = "" then
        sendResponse env ⟨FirmwareUpdateResponse.Status.ERROR,
          some FirmwareUpdateResponse.ErrorCode.UNSPECIFIED_ERROR⟩ deviceKey
          (s.warn "Missing url from firmware update command")
      else
        let autoInstall := match command.autoInstall with
          | some value => value
          | none => false
        urlDownload env deviceKey url autoInstall s
  | FirmwareUpdateCommandType.INSTALL => s
  | FirmwareUpdateCommandType.ABORT => s
  | FirmwareUpdateCommandType.other _ =>
    sendResponse env ⟨FirmwareUpdateResponse.Status.ERROR,
      some FirmwareUpdateResponse.ErrorCode.UNSPECIFIED_ERROR⟩ deviceKey s

/-- The function `FirmwareUpdateService::messageReceived`.  The third check logs and, unlike the
first two, does not return. -/
def messageReceived (env : Env) (message : Message) (s : ServiceState) : ServiceState :=
  if !env.protocol.isFirmwareUpdateMessage message then
    s.warn ("Unable to parse message channel: " ++ message.channel)
  else
    match env.protocol.makeFirmwareUpdateCommand message with
    | none => s.warn ("Unable to parse message contents: " ++ message.content)
    | some dfuCommand =>
      let deviceKey := env.protocol.extractDeviceKeyFromChannel message.channel
      let s := if deviceKey = "" then
          s.warn ("Unable to extract device key from channel: " ++ message.channel)
        else s
      addToCommandBuffer (Command.handle dfuCommand deviceKey) s

/-- The body of a queued closure. -/
def Command.run (env : Env) : Command → ServiceState → ServiceState
  | Command.handle dfuCommand deviceKey, s =>
    handleFirmwareUpdateCommand env dfuCommand deviceKey s
  | Command.completed filePath deviceKey autoInstall, s =>
    let s := sendResponse env ⟨FirmwareUpdateResponse.Status.FILE_READY, none⟩ deviceKey s
    if autoInstall then install deviceKey filePath s else s

/-! ## The command buffer -/

/-- Modelled from the spec: the worker of `CommandBuffer` (`core/utilities/CommandBuffer.h`, not
among the sources), which the spec describes as executing the queued commands one at a time,
first in, first out.  Each turn takes the command at the front of the queue and runs it to
completion; the commands it pushes meanwhile go to the back.  The worker stops when the queue is
empty, or after `fuel` turns. -/
def CommandBuffer.drainFuel (env : Env) : Nat → ServiceState → ServiceState
  | 0, s => s
  | fuel + 1, s =>
    match s.commandBuffer with
    | [] => s
    | command :: rest =>
      CommandBuffer.drainFuel env fuel (command.run env { s with commandBuffer := rest })

/-- The number of worker turns a queued command can cause: a `handle` closure runs and may
enqueue one `completed` closure, a `completed` closure enqueues nothing. -/
def Command.weight : Command → Nat
  | Command.handle _ _ => 2
  | Command.completed _ _ _ => 1

/-- The number of worker turns that empties a queue. -/
def CommandBuffer.turns (queue : List Command) : Nat :=
  (queue.map Command.weight).sum

/-- Modelled from the spec: the worker of `CommandBuffer` running until the queue is empty
(`drain_commandBuffer` proves that it is). -/
def CommandBuffer.drain (env : Env) (s : ServiceState) : ServiceState :=
  CommandBuffer.drainFuel env (CommandBuffer.turns s.commandBuffer) s

/-! ## Reading a trace -/

/-- The responses issued, in order: the `(deviceKey, response)` of every `makeMessage` call. -/
def responsesOf (trace : List Event) : List (String × FirmwareUpdateResponse) :=
  trace.filterMap fun e =>
    match e with
    | Event.makeMessage deviceKey response => some (deviceKey, response)
    | _ => none

/-- The messages handed to `ConnectivityService::publish`, in order. -/
def publishedOf (trace : List Event) : List Message :=
  trace.filterMap fun e =>
    match e with
    | Event.publish message => some message
    | _ => none

/-- The urls handed to the file downloader, in order. -/
def downloadsOf (trace : List Event) : List String :=
  trace.filterMap fun e =>
    match e with
    | Event.download url => some url
    | _ => none

/-- The `(deviceKey, firmwareFilePath)` of every call of the service's install step. -/
def installsOf (trace : List Event) : List (String × String) :=
  trace.filterMap fun e =>
    match e with
    | Event.install deviceKey firmwareFilePath => some (deviceKey, firmwareFilePath)
    | _ => none

/-- The `(deviceKey, firmwareFile)` of every call of `FirmwareInstaller::install`. -/
def installerCallsOf (trace : List Event) : List (String × String) :=
  trace.filterMap fun e =>
    match e with
    | Event.installerInstall deviceKey firmwareFile => some (deviceKey, firmwareFile)
    | _ => none

/-- The events of one `sendResponse`: the protocol is asked for the message and, when it
builds one, that message is handed to the connectivity service. -/
def responseEvents (env : Env) (deviceKey : String) (response : FirmwareUpdateResponse) :
    List Event :=
  Event.makeMessage deviceKey response ::
    (match env.protocol.makeMessage deviceKey response with
     | some message => [Event.publish message]
     | none => [])

/-- The events recorded between an earlier state `s` and a later state `s'` of the service. -/
def eventsSince (s s' : ServiceState) : List Event :=
  s'.trace.drop s.trace.length

/-- The response `FirmwareUpdateResponse{Status::ERROR, ErrorCode::UNSPECIFIED_ERROR}`. -/
abbrev errorUnspecified : FirmwareUpdateResponse :=
  ⟨FirmwareUpdateResponse.Status.ERROR, some FirmwareUpdateResponse.ErrorCode.UNSPECIFIED_ERROR⟩

/-- The response `FirmwareUpdateResponse{Status::ERROR, ErrorCode::FILE_SYSTEM_ERROR}`. -/
abbrev errorFileSystem : FirmwareUpdateResponse :=
  ⟨FirmwareUpdateResponse.Status.ERROR, some FirmwareUpdateResponse.ErrorCode.FILE_SYSTEM_ERROR⟩

/-- The response `FirmwareUpdateResponse{Status::FILE_READY}`. -/
abbrev fileReady : FirmwareUpdateResponse :=
  ⟨FirmwareUpdateResponse.Status.FILE_READY, none⟩

/-- The events a queue of closures records when the worker runs them one after the other and
none of them enqueues anything: those of each closure on its own, in queue order. -/
def queuedEvents (env : Env) : List Command → List Event
  | [] => []
  | command :: rest => (command.run env ServiceState.fresh).trace ++ queuedEvents env rest

/-! ## A concrete environment -/

/-- A protocol for two devices: the channels `fw/dev1` and `fw/dev2` carry firmware update
messages for `dev1` and `dev2`, the channel `fw/` carries one from which no device key can be
extracted; four contents decode to a command. -/
def sampleProtocol : FirmwareUpdateProtocol where
  isFirmwareUpdateMessage := fun message =>
    decide (message.channel = "fw/dev1" ∨ message.channel = "fw/dev2" ∨ message.channel = "fw/")
  makeFirmwareUpdateCommand := fun message =>
    if message.content = "url:fw.bin" then
      some ⟨FirmwareUpdateCommandType.URL_DOWNLOAD, some "fw.bin", some false⟩
    else if message.content = "install:fw.bin" then
      some ⟨FirmwareUpdateCommandType.URL_DOWNLOAD, some "fw.bin", some true⟩
    else if message.content = "url:" then
      some ⟨FirmwareUpdateCommandType.URL_DOWNLOAD, some "", none⟩
    else if message.content = "upload" then
      some ⟨FirmwareUpdateCommandType.FILE_UPLOAD, none, none⟩
    else none
  extractDeviceKeyFromChannel := fun channel =>
    if channel = "fw/dev1" then "dev1" else if channel = "fw/dev2" then "dev2" else ""
  makeMessage := fun deviceKey response =>
    some ⟨deviceKey,
      match response.status, response.errorCode with
      | FirmwareUpdateResponse.Status.FILE_READY, _ => "FILE_READY"
      | FirmwareUpdateResponse.Status.ERROR,
          some FirmwareUpdateResponse.ErrorCode.FILE_SYSTEM_ERROR => "ERROR 1"
      | FirmwareUpdateResponse.Status.ERROR, _ => "ERROR 0"
      | _, _ => "OTHER"⟩

/-- A working environment: `sampleProtocol`, a connectivity service that always publishes, and
a file system holding the single file `fw.bin`. -/
def sampleEnv : Env where
  protocol := sampleProtocol
  publish := fun _ => true
  isFilePresent := fun path => path = "fw.bin"

/-- The sample environment with a connectivity service that fails to publish. -/
def offlineEnv : Env where
  protocol := sampleProtocol
  publish := fun _ => false
  isFilePresent := fun path => path = "fw.bin"

/-! ## Theorems -/

/-! ### What one call appends -/

theorem eventsSince_of_append {s s' : ServiceState} {events : List Event}
    (h : s'.trace = s.trace ++ events) : eventsSince s s' = events := by
  simp [eventsSince, h]

theorem responsesOf_append (a b : List Event) :
    responsesOf (a ++ b) = responsesOf a ++ responsesOf b := by
  simp [responsesOf, List.filterMap_append]

theorem publishedOf_append (a b : List Event) :
    publishedOf (a ++ b) = publishedOf a ++ publishedOf b := by
  simp [publishedOf, List.filterMap_append]

theorem downloadsOf_append (a b : List Event) :
    downloadsOf (a ++ b) = downloadsOf a ++ downloadsOf b := by
  simp [downloadsOf, List.filterMap_append]

theorem installsOf_append (a b : List Event) :
    installsOf (a ++ b) = installsOf a ++ installsOf b := by
  simp [installsOf, List.filterMap_append]

theorem installerCallsOf_append (a b : List Event) :
    installerCallsOf (a ++ b) = installerCallsOf a ++ installerCallsOf b := by
  simp [installerCallsOf, List.filterMap_append]

theorem responsesOf_responseEvents (env : Env) (deviceKey : String)
    (response : FirmwareUpdateResponse) :
    responsesOf (responseEvents env deviceKey response) = [(deviceKey, response)] := by
  unfold responseEvents
  cases env.protocol.makeMessage deviceKey response <;> simp [responsesOf]

theorem publishedOf_responseEvents (env : Env) (deviceKey : String)
    (response : FirmwareUpdateResponse) :
    publishedOf (responseEvents env deviceKey response)
      = (env.protocol.makeMessage deviceKey response).toList := by
  unfold responseEvents
  cases env.protocol.makeMessage deviceKey response <;> simp [publishedOf]

theorem downloadsOf_responseEvents (env : Env) (deviceKey : String)
    (response : FirmwareUpdateResponse) :
    downloadsOf (responseEvents env deviceKey response) = [] := by
  unfold responseEvents
  cases env.protocol.makeMessage deviceKey response <;> simp [downloadsOf]

theorem installsOf_responseEvents (env : Env) (deviceKey : String)
    (response : FirmwareUpdateResponse) :
    installsOf (responseEvents env deviceKey response) = [] := by
  unfold responseEvents
  cases env.protocol.makeMessage deviceKey response <;> simp [installsOf]

theorem installerCallsOf_responseEvents (env : Env) (deviceKey : String)
    (response : FirmwareUpdateResponse) :
    installerCallsOf (responseEvents env deviceKey response) = [] := by
  unfold responseEvents
  cases env.protocol.makeMessage deviceKey response <;> simp [installerCallsOf]

theorem sendResponse_trace (env : Env) (response : FirmwareUpdateResponse) (deviceKey : String)
    (s : ServiceState) :
    (sendResponse env response deviceKey s).trace
      = s.trace ++ responseEvents env deviceKey response := by
  unfold sendResponse responseEvents
  cases env.protocol.makeMessage deviceKey response with
  | none => simp [ServiceState.record, ServiceState.warn]
  | some message =>
    by_cases hp : env.publish message = true <;> simp [hp, ServiceState.record, ServiceState.warn]

theorem sendResponse_commandBuffer (env : Env) (response : FirmwareUpdateResponse)
    (deviceKey : String) (s : ServiceState) :
    (sendResponse env response deviceKey s).commandBuffer = s.commandBuffer := by
  unfold sendResponse
  cases env.protocol.makeMessage deviceKey response with
  | none => simp [ServiceState.record, ServiceState.warn]
  | some message =>
    by_cases hp : env.publish message = true <;> simp [hp, ServiceState.record, ServiceState.warn]

theorem handle_without_url (env : Env) (s : ServiceState) (deviceKey : String)
    (command : FirmwareUpdateCommand)
    (hType : command.type = FirmwareUpdateCommandType.URL_DOWNLOAD)
    (hUrl : command.url = none ∨ command.url = some "") :
    handleFirmwareUpdateCommand env command deviceKey s
      = sendResponse env errorUnspecified deviceKey
          (s.warn "Missing url from firmware update command") := by
  unfold handleFirmwareUpdateCommand
  rcases hUrl with h | h <;> simp [hType, h]

theorem urlDownload_trace (env : Env) (deviceKey url : String) (autoInstall : Bool)
    (s : ServiceState) :
    (urlDownload env deviceKey url autoInstall s).trace
      = s.trace ++ Event.download url :: responseEvents env deviceKey errorFileSystem := by
  unfold urlDownload LocalFileDownloader.download downloadFailed
  by_cases hfile : env.isFilePresent url = true <;>
    simp [hfile, sendResponse_trace, downloadCompleted, addToCommandBuffer, ServiceState.record]

theorem urlDownload_commandBuffer (env : Env) (deviceKey url : String) (autoInstall : Bool)
    (s : ServiceState) :
    (urlDownload env deviceKey url autoInstall s).commandBuffer
      = s.commandBuffer ++
        (if env.isFilePresent url = true then [Command.completed url deviceKey autoInstall]
         else []) := by
  unfold urlDownload LocalFileDownloader.download downloadFailed
  by_cases hfile : env.isFilePresent url = true <;>
    simp [hfile, sendResponse_commandBuffer, downloadCompleted, addToCommandBuffer,
      ServiceState.record]

theorem handle_with_url (env : Env) (s : ServiceState) (deviceKey : String)
    (command : FirmwareUpdateCommand) (url : String)
    (hType : command.type = FirmwareUpdateCommandType.URL_DOWNLOAD)
    (hUrl : command.url = some url) (hne : url ≠ "") :
    handleFirmwareUpdateCommand env command deviceKey s
      = urlDownload env deviceKey url (decide (command.autoInstall = some true)) s := by
  unfold handleFirmwareUpdateCommand
  rcases command with ⟨type, curl, autoInstall⟩
  simp only at hType hUrl
  subst hType hUrl
  rcases autoInstall with _ | _ | _ <;> simp [hne]

theorem completed_run_trace (env : Env) (filePath deviceKey : String) (autoInstall : Bool)
    (s : ServiceState) :
    ((Command.completed filePath deviceKey autoInstall).run env s).trace
      = s.trace ++ (responseEvents env deviceKey fileReady ++
          if autoInstall = true then [Event.install deviceKey filePath] else []) := by
  cases autoInstall <;>
    simp [Command.run, install, sendResponse_trace, ServiceState.record]

theorem completed_run_commandBuffer (env : Env) (filePath deviceKey : String)
    (autoInstall : Bool) (s : ServiceState) :
    ((Command.completed filePath deviceKey autoInstall).run env s).commandBuffer
      = s.commandBuffer := by
  cases autoInstall <;>
    simp [Command.run, install, sendResponse_commandBuffer, ServiceState.record]

theorem drainFuel_nil (env : Env) (fuel : Nat) (s : ServiceState) (h : s.commandBuffer = []) :
    CommandBuffer.drainFuel env fuel s = s := by
  cases fuel with
  | zero => rfl
  | succ n => simp [CommandBuffer.drainFuel, h]

theorem drainFuel_cons (env : Env) (fuel : Nat) (s : ServiceState) (command : Command)
    (rest : List Command) (h : s.commandBuffer = command :: rest) :
    CommandBuffer.drainFuel env (fuel + 1) s
      = CommandBuffer.drainFuel env fuel (command.run env { s with commandBuffer := rest }) := by
  simp [CommandBuffer.drainFuel, h]

/-- Handling a URL_DOWNLOAD of a present file from an empty queue and letting the worker run:
the download is requested, ERROR/FILE_SYSTEM_ERROR is issued by the `onFail` call that follows
`onSuccess`, then the queued closure issues FILE_READY and, with auto install, calls the
install step. -/
theorem drain_handle_present_trace (env : Env) (s : ServiceState) (deviceKey : String)
    (command : FirmwareUpdateCommand) (url : String)
    (hType : command.type = FirmwareUpdateCommandType.URL_DOWNLOAD)
    (hUrl : command.url = some url) (hne : url ≠ "")
    (hfile : env.isFilePresent url = true) (hq : s.commandBuffer = []) :
    (CommandBuffer.drain env (handleFirmwareUpdateCommand env command deviceKey s)).trace
      = s.trace ++ (Event.download url :: responseEvents env deviceKey errorFileSystem
          ++ (responseEvents env deviceKey fileReady
          ++ if command.autoInstall = some true then [Event.install deviceKey url] else []))
    ∧ (CommandBuffer.drain env
        (handleFirmwareUpdateCommand env command deviceKey s)).commandBuffer = [] := by
  have hcb : (handleFirmwareUpdateCommand env command deviceKey s).commandBuffer
      = [Command.completed url deviceKey (decide (command.autoInstall = some true))] := by
    rw [handle_with_url env s deviceKey command url hType hUrl hne, urlDownload_commandBuffer]
    simp [hfile, hq]
  have htr : (handleFirmwareUpdateCommand env command deviceKey s).trace
      = s.trace ++ Event.download url :: responseEvents env deviceKey errorFileSystem := by
    rw [handle_with_url env s deviceKey command url hType hUrl hne, urlDownload_trace]
  have hdrain : CommandBuffer.drain env (handleFirmwareUpdateCommand env command deviceKey s)
      = (Command.completed url deviceKey (decide (command.autoInstall = some true))).run env
          { handleFirmwareUpdateCommand env command deviceKey s with commandBuffer := [] } := by
    unfold CommandBuffer.drain
    rw [hcb]
    have hone : CommandBuffer.turns
        [Command.completed url deviceKey (decide (command.autoInstall = some true))] = 0 + 1 := by
      simp [CommandBuffer.turns, Command.weight]
    rw [hone, drainFuel_cons env 0 _ _ [] hcb]
    rfl
  rw [hdrain, completed_run_trace, completed_run_commandBuffer]
  refine ⟨?_, rfl⟩
  simp [htr]

theorem installsOf_download_responses (env : Env) (deviceKey url : String) :
    installsOf (Event.download url :: responseEvents env deviceKey errorFileSystem
      ++ responseEvents env deviceKey fileReady) = [] := by
  rw [installsOf_append, installsOf_responseEvents]
  have h : installsOf (Event.download url :: responseEvents env deviceKey errorFileSystem)
      = installsOf (responseEvents env deviceKey errorFileSystem) := by
    simp [installsOf]
  rw [h, installsOf_responseEvents]
  rfl

/-- A trace whose only install call is its last event splits at an install call in one way. -/
theorem split_at_last_install (before : List Event) (deviceKey filePath : String)
    (hbefore : installsOf before = []) :
    ∀ (pre post : List Event) (k p : String),
      before ++ [Event.install deviceKey filePath] = pre ++ Event.install k p :: post →
      pre = before ∧ k = deviceKey ∧ p = filePath := by
  induction before with
  | nil =>
    intro pre post k p h
    cases pre with
    | nil => simp at h; exact ⟨rfl, h.1.1.symm, h.1.2.symm⟩
    | cons e pre => simp at h
  | cons a before ih =>
    intro pre post k p h
    have hsplit : installsOf (a :: before) = installsOf [a] ++ installsOf before :=
      installsOf_append [a] before
    rw [hsplit] at hbefore
    have ha : installsOf [a] = [] := (List.append_eq_nil.mp hbefore).1
    have hrest : installsOf before = [] := (List.append_eq_nil.mp hbefore).2
    cases pre with
    | nil =>
      simp at h
      rw [h.1] at ha
      simp [installsOf] at ha
    | cons e pre =>
      simp at h
      obtain ⟨hpre, hk, hp⟩ := ih hrest pre post k p h.2
      exact ⟨by rw [h.1, hpre], hk, hp⟩

/-- A trace without install calls does not split at one. -/
theorem no_split_without_install (events pre post : List Event) (k p : String)
    (hevents : installsOf events = []) : events ≠ pre ++ Event.install k p :: post := by
  intro h
  rw [h, installsOf_append] at hevents
  have hcons : installsOf (Event.install k p :: post) = (k, p) :: installsOf post := by
    simp [installsOf]
  rw [hcons] at hevents
  simp at hevents

/-! ### The worker empties the queue -/

theorem turns_append (a b : List Command) :
    CommandBuffer.turns (a ++ b) = CommandBuffer.turns a + CommandBuffer.turns b := by
  simp [CommandBuffer.turns]

theorem weight_pos (command : Command) : 1 ≤ command.weight := by
  cases command <;> simp [Command.weight]

theorem handle_commandBuffer_turns (env : Env) (command : FirmwareUpdateCommand)
    (deviceKey : String) (s : ServiceState) :
    CommandBuffer.turns (handleFirmwareUpdateCommand env command deviceKey s).commandBuffer
      ≤ CommandBuffer.turns s.commandBuffer + 1 := by
  rcases command with ⟨type, url, autoInstall⟩
  cases type with
  | FILE_UPLOAD => simp [handleFirmwareUpdateCommand, ServiceState.warn]
  | INSTALL => simp [handleFirmwareUpdateCommand]
  | ABORT => simp [handleFirmwareUpdateCommand]
  | other raw => simp [handleFirmwareUpdateCommand, sendResponse_commandBuffer]
  | URL_DOWNLOAD =>
    cases url with
    | none =>
      simp [handleFirmwareUpdateCommand, sendResponse_commandBuffer, ServiceState.warn]
    | some u =>
      by_cases hu : u = ""
      · simp [handleFirmwareUpdateCommand, hu, sendResponse_commandBuffer, ServiceState.warn]
      · simp only [handleFirmwareUpdateCommand, hu, if_false]
        rw [urlDownload_commandBuffer, turns_append]
        by_cases hfile : env.isFilePresent u = true <;>
          simp [hfile, CommandBuffer.turns, Command.weight]

theorem run_commandBuffer_turns (env : Env) (command : Command) (s : ServiceState) :
    CommandBuffer.turns (command.run env s).commandBuffer + 1
      ≤ CommandBuffer.turns s.commandBuffer + command.weight := by
  cases command with
  | handle dfuCommand deviceKey =>
    have h := handle_commandBuffer_turns env dfuCommand deviceKey s
    simp only [Command.run, Command.weight]
    omega
  | completed filePath deviceKey autoInstall =>
    rw [completed_run_commandBuffer]
    simp [Command.weight]

theorem drainFuel_commandBuffer (env : Env) :
    ∀ (fuel : Nat) (s : ServiceState), CommandBuffer.turns s.commandBuffer ≤ fuel →
      (CommandBuffer.drainFuel env fuel s).commandBuffer = [] := by
  intro fuel
  induction fuel with
  | zero =>
    intro s h
    cases hq : s.commandBuffer with
    | nil => simp [CommandBuffer.drainFuel, hq]
    | cons command rest =>
      rw [hq] at h
      have hw := weight_pos command
      simp [CommandBuffer.turns] at h
      omega
  | succ n ih =>
    intro s h
    cases hq : s.commandBuffer with
    | nil => rw [drainFuel_nil env _ s hq, hq]
    | cons command rest =>
      rw [drainFuel_cons env n s command rest hq]
      apply ih
      have hrun := run_commandBuffer_turns env command { s with commandBuffer := rest }
      rw [hq] at h
      simp [CommandBuffer.turns] at h hrun ⊢
      omega

/-- The worker always gets to the end of the queue: after `drain` no command is waiting. -/
theorem drain_commandBuffer (env : Env) (s : ServiceState) :
    (CommandBuffer.drain env s).commandBuffer = [] :=
  drainFuel_commandBuffer env _ s (Nat.le_refl _)

/-! ### A queue of completed downloads -/

theorem length_le_turns (queue : List Command) : queue.length ≤ CommandBuffer.turns queue := by
  induction queue with
  | nil => simp
  | cons command rest ih =>
    have hw := weight_pos command
    simp [CommandBuffer.turns] at ih ⊢
    omega

theorem queuedEvents_append (env : Env) (a b : List Command) :
    queuedEvents env (a ++ b) = queuedEvents env a ++ queuedEvents env b := by
  induction a with
  | nil => rfl
  | cons command rest ih => simp [queuedEvents, ih]

/-- The worker on a queue of `completed` closures: each one records its events, in order. -/
theorem drainFuel_completed_trace (env : Env) :
    ∀ (queue : List Command) (s : ServiceState) (fuel : Nat),
      s.commandBuffer = queue →
      (∀ command ∈ queue, ∃ filePath deviceKey autoInstall,
        command = Command.completed filePath deviceKey autoInstall) →
      queue.length ≤ fuel →
      (CommandBuffer.drainFuel env fuel s).trace = s.trace ++ queuedEvents env queue := by
  intro queue
  induction queue with
  | nil =>
    intro s fuel hq _ _
    rw [drainFuel_nil env fuel s hq]
    simp [queuedEvents]
  | cons command rest ih =>
    intro s fuel hq hall hfuel
    cases fuel with
    | zero => simp at hfuel
    | succ n =>
      obtain ⟨filePath, deviceKey, autoInstall, hc⟩ := hall command (List.mem_cons_self _ _)
      subst hc
      rw [drainFuel_cons env n s _ rest hq,
        ih _ n (by rw [completed_run_commandBuffer])
          (fun c hmem => hall c (List.mem_cons_of_mem _ hmem))
          (by simpa using hfuel)]
      rw [completed_run_trace]
      simp [queuedEvents, completed_run_trace, ServiceState.fresh]

theorem drain_completed_trace (env : Env) (s : ServiceState)
    (hall : ∀ command ∈ s.commandBuffer, ∃ filePath deviceKey autoInstall,
      command = Command.completed filePath deviceKey autoInstall) :
    (CommandBuffer.drain env s).trace = s.trace ++ queuedEvents env s.commandBuffer :=
  drainFuel_completed_trace env s.commandBuffer s _ rfl hall (length_le_turns _)

theorem urlDownload_queues_completed (env : Env) (deviceKey url : String) (autoInstall : Bool) :
    ∀ command ∈ (if env.isFilePresent url = true
        then [Command.completed url deviceKey autoInstall] else []),
      ∃ filePath deviceKey autoInstall,
        command = Command.completed filePath deviceKey autoInstall := by
  intro command hmem
  by_cases hfile : env.isFilePresent url = true
  · simp [hfile] at hmem
    exact ⟨_, _, _, hmem⟩
  · simp [hfile] at hmem

theorem handle_with_url_trace (env : Env) (s : ServiceState) (deviceKey : String)
    (command : FirmwareUpdateCommand) (url : String)
    (hType : command.type = FirmwareUpdateCommandType.URL_DOWNLOAD)
    (hUrl : command.url = some url) (hne : url ≠ "") :
    (handleFirmwareUpdateCommand env command deviceKey s).trace
      = s.trace ++ Event.download url :: responseEvents env deviceKey errorFileSystem := by
  rw [handle_with_url env s deviceKey command url hType hUrl hne, urlDownload_trace]

theorem handle_with_url_commandBuffer (env : Env) (s : ServiceState) (deviceKey : String)
    (command : FirmwareUpdateCommand) (url : String)
    (hType : command.type = FirmwareUpdateCommandType.URL_DOWNLOAD)
    (hUrl : command.url = some url) (hne : url ≠ "") :
    (handleFirmwareUpdateCommand env command deviceKey s).commandBuffer
      = s.commandBuffer ++
        (if env.isFilePresent url = true
          then [Command.completed url deviceKey (decide (command.autoInstall = some true))]
          else []) := by
  rw [handle_with_url env s deviceKey command url hType hUrl hne, urlDownload_commandBuffer]

/-! ### URL_DOWNLOAD without a url -/

/-- C1: for every device key and every URL_DOWNLOAD command whose url is absent or the empty
string, `handleFirmwareUpdateCommand` issues exactly one response, ERROR with
UNSPECIFIED_ERROR, for that device key (the one message the protocol builds for it is what is
handed to the connectivity service), and it calls neither the file downloader nor the install
step and enqueues nothing. -/
theorem handleFirmwareUpdateCommand_url_download_without_url (env : Env) (s : ServiceState)
    (deviceKey : String) (command : FirmwareUpdateCommand)
    (hType : command.type = FirmwareUpdateCommandType.URL_DOWNLOAD)
    (hUrl : command.url = none ∨ command.url = some "") :
    (handleFirmwareUpdateCommand env command deviceKey s).trace
        = s.trace ++ responseEvents env deviceKey errorUnspecified
      ∧ responsesOf (eventsSince s (handleFirmwareUpdateCommand env command deviceKey s))
        = [(deviceKey, errorUnspecified)]
      ∧ publishedOf (eventsSince s (handleFirmwareUpdateCommand env command deviceKey s))
        = (env.protocol.makeMessage deviceKey errorUnspecified).toList
      ∧ downloadsOf (eventsSince s (handleFirmwareUpdateCommand env command deviceKey s)) = []
      ∧ installsOf (eventsSince s (handleFirmwareUpdateCommand env command deviceKey s)) = []
      ∧ installerCallsOf (eventsSince s (handleFirmwareUpdateCommand env command deviceKey s))
        = []
      ∧ (handleFirmwareUpdateCommand env command deviceKey s).commandBuffer
        = s.commandBuffer := by
  have htrace : (handleFirmwareUpdateCommand env command deviceKey s).trace
      = s.trace ++ responseEvents env deviceKey errorUnspecified := by
    rw [handle_without_url env s deviceKey command hType hUrl, sendResponse_trace]
    rfl
  have hev := eventsSince_of_append htrace
  refine ⟨htrace, ?_, ?_, ?_, ?_, ?_, ?_⟩
  · rw [hev, responsesOf_responseEvents]
  · rw [hev, publishedOf_responseEvents]
  · rw [hev, downloadsOf_responseEvents]
  · rw [hev, installsOf_responseEvents]
  · rw [hev, installerCallsOf_responseEvents]
  · rw [handle_without_url env s deviceKey command hType hUrl, sendResponse_commandBuffer]
    rfl

/-- Witness of C1 in the sample environment: a URL_DOWNLOAD with the empty url for `dev1`. -/
theorem handleFirmwareUpdateCommand_url_download_without_url_witness :
    (handleFirmwareUpdateCommand sampleEnv
        ⟨FirmwareUpdateCommandType.URL_DOWNLOAD, some "", some true⟩ "dev1"
        ServiceState.fresh).trace
        = ServiceState.fresh.trace ++ responseEvents sampleEnv "dev1" errorUnspecified
      ∧ publishedOf (handleFirmwareUpdateCommand sampleEnv
        ⟨FirmwareUpdateCommandType.URL_DOWNLOAD, some "", some true⟩ "dev1"
        ServiceState.fresh).trace = [⟨"dev1", "ERROR 0"⟩] :=
  ⟨(handleFirmwareUpdateCommand_url_download_without_url sampleEnv ServiceState.fresh "dev1"
      ⟨FirmwareUpdateCommandType.URL_DOWNLOAD, some "", some true⟩ rfl (Or.inr rfl)).1,
    by decide⟩

/-! ### URL_DOWNLOAD of a file that exists -/

/-- C2: for every device key and every URL_DOWNLOAD command with a non-empty url naming a file
that exists, handling the command and then draining the command buffer publishes exactly one
response whose status is FILE_READY, for that device key: exactly one FILE_READY response is
issued, and the message the protocol builds for it is handed to the connectivity service,
once, by the `sendResponse` that issued it.  (The responses issued are, in full,
ERROR/FILE_SYSTEM_ERROR and then FILE_READY, and the messages published are those the protocol
builds for these two, in that order.) -/
theorem url_download_present_one_file_ready (env : Env) (s : ServiceState) (deviceKey : String)
    (command : FirmwareUpdateCommand) (url : String)
    (hType : command.type = FirmwareUpdateCommandType.URL_DOWNLOAD)
    (hUrl : command.url = some url) (hne : url ≠ "")
    (hfile : env.isFilePresent url = true) (hq : s.commandBuffer = []) :
    (responsesOf (eventsSince s
        (CommandBuffer.drain env (handleFirmwareUpdateCommand env command deviceKey s)))).filter
        (fun r => decide (r.2.status = FirmwareUpdateResponse.Status.FILE_READY))
      = [(deviceKey, fileReady)]
    ∧ responsesOf (eventsSince s
        (CommandBuffer.drain env (handleFirmwareUpdateCommand env command deviceKey s)))
      = [(deviceKey, errorFileSystem), (deviceKey, fileReady)]
    ∧ (CommandBuffer.drain env
        (handleFirmwareUpdateCommand env command deviceKey s)).commandBuffer = []
    ∧ publishedOf (eventsSince s
        (CommandBuffer.drain env (handleFirmwareUpdateCommand env command deviceKey s)))
      = (env.protocol.makeMessage deviceKey errorFileSystem).toList
        ++ (env.protocol.makeMessage deviceKey fileReady).toList
    ∧ (∀ message, env.protocol.makeMessage deviceKey fileReady = some message →
        Event.publish message ∈ eventsSince s
          (CommandBuffer.drain env (handleFirmwareUpdateCommand env command deviceKey s)))
    ∧ eventsSince s
        (CommandBuffer.drain env (handleFirmwareUpdateCommand env command deviceKey s))
      = Event.download url :: responseEvents env deviceKey errorFileSystem
        ++ (Event.makeMessage deviceKey fileReady
            :: ((env.protocol.makeMessage deviceKey fileReady).toList.map Event.publish
          ++ if command.autoInstall = some true then [Event.install deviceKey url] else []))
    := by
  obtain ⟨htr, hcb⟩ :=
    drain_handle_present_trace env s deviceKey command url hType hUrl hne hfile hq
  have hev := eventsSince_of_append htr
  have hresp : responsesOf (eventsSince s
        (CommandBuffer.drain env (handleFirmwareUpdateCommand env command deviceKey s)))
      = [(deviceKey, errorFileSystem), (deviceKey, fileReady)] := by
    rw [hev]
    have hd : ∀ l, responsesOf (Event.download url :: l) = responsesOf l := by
      intro l; simp [responsesOf]
    rw [List.cons_append, hd, responsesOf_append, responsesOf_append,
      responsesOf_responseEvents, responsesOf_responseEvents]
    by_cases ha : command.autoInstall = some true <;> simp [ha, responsesOf]
  have hpub : publishedOf (eventsSince s
        (CommandBuffer.drain env (handleFirmwareUpdateCommand env command deviceKey s)))
      = (env.protocol.makeMessage deviceKey errorFileSystem).toList
        ++ (env.protocol.makeMessage deviceKey fileReady).toList := by
    rw [hev]
    have hd : ∀ l, publishedOf (Event.download url :: l) = publishedOf l := by
      intro l; simp [publishedOf]
    rw [List.cons_append, hd, publishedOf_append, publishedOf_append,
      publishedOf_responseEvents, publishedOf_responseEvents]
    by_cases ha : command.autoInstall = some true <;> simp [ha, publishedOf]
  refine ⟨?_, hresp, hcb, hpub, ?_, ?_⟩
  · rw [hresp]
    simp [List.filter]
  · intro message hm
    rw [hev]
    simp [responseEvents, hm]
  · rw [hev]
    cases hm : env.protocol.makeMessage deviceKey fileReady <;> simp [responseEvents, hm]

/-- Witness of C2 in the sample environment: `dev1` is told to download the present file
`fw.bin`; one FILE_READY response is issued and its message is published, after the ERROR
one. -/
theorem url_download_present_one_file_ready_witness :
    (responsesOf (eventsSince ServiceState.fresh
        (CommandBuffer.drain sampleEnv (handleFirmwareUpdateCommand sampleEnv
          ⟨FirmwareUpdateCommandType.URL_DOWNLOAD, some "fw.bin", none⟩ "dev1"
          ServiceState.fresh)))).filter
        (fun r => decide (r.2.status = FirmwareUpdateResponse.Status.FILE_READY))
      = [("dev1", fileReady)]
    ∧ publishedOf (eventsSince ServiceState.fresh
        (CommandBuffer.drain sampleEnv (handleFirmwareUpdateCommand sampleEnv
          ⟨FirmwareUpdateCommandType.URL_DOWNLOAD, some "fw.bin", none⟩ "dev1"
          ServiceState.fresh)))
      = [⟨"dev1", "ERROR 1"⟩, ⟨"dev1", "FILE_READY"⟩]
    ∧ Event.publish ⟨"dev1", "FILE_READY"⟩ ∈ eventsSince ServiceState.fresh
        (CommandBuffer.drain sampleEnv (handleFirmwareUpdateCommand sampleEnv
          ⟨FirmwareUpdateCommandType.URL_DOWNLOAD, some "fw.bin", none⟩ "dev1"
          ServiceState.fresh)) :=
  ⟨(url_download_present_one_file_ready sampleEnv ServiceState.fresh "dev1"
      ⟨FirmwareUpdateCommandType.URL_DOWNLOAD, some "fw.bin", none⟩ "fw.bin" rfl rfl (by decide)
      (by decide) rfl).1,
    (url_download_present_one_file_ready sampleEnv ServiceState.fresh "dev1"
      ⟨FirmwareUpdateCommandType.URL_DOWNLOAD, some "fw.bin", none⟩ "fw.bin" rfl rfl (by decide)
      (by decide) rfl).2.2.2.1,
    (url_download_present_one_file_ready sampleEnv ServiceState.fresh "dev1"
      ⟨FirmwareUpdateCommandType.URL_DOWNLOAD, some "fw.bin", none⟩ "fw.bin" rfl rfl (by decide)
      (by decide) rfl).2.2.2.2.1 ⟨"dev1", "FILE_READY"⟩ rfl⟩

/-- C3, evaluated where it fails: in the sample environment (message construction and publish
always succeed) `dev1` is told to download the present file `fw.bin`.  Two messages are
published, and the first is the ERROR/FILE_SYSTEM_ERROR one. -/
theorem url_download_present_publishes_error_first :
    publishedOf (CommandBuffer.drain sampleEnv (handleFirmwareUpdateCommand sampleEnv
        ⟨FirmwareUpdateCommandType.URL_DOWNLOAD, some "fw.bin", some false⟩ "dev1"
        ServiceState.fresh)).trace
      = [⟨"dev1", "ERROR 1"⟩, ⟨"dev1", "FILE_READY"⟩]
    ∧ responsesOf (CommandBuffer.drain sampleEnv (handleFirmwareUpdateCommand sampleEnv
        ⟨FirmwareUpdateCommandType.URL_DOWNLOAD, some "fw.bin", some false⟩ "dev1"
        ServiceState.fresh)).trace
      = [("dev1", errorFileSystem), ("dev1", fileReady)] := by
  decide

/-- C4: for every URL_DOWNLOAD command whose download succeeds, the install step is called if
and only if the command carried `autoInstall = true` (absent counts as false), once, for that
device key and the downloaded file; and every call of the install step comes after the
FILE_READY response for that device key was issued and, when the protocol builds a message for
it, after that message was handed to the connectivity service. -/
theorem url_download_present_install_iff_auto_install (env : Env) (s : ServiceState)
    (deviceKey : String) (command : FirmwareUpdateCommand) (url : String)
    (hType : command.type = FirmwareUpdateCommandType.URL_DOWNLOAD)
    (hUrl : command.url = some url) (hne : url ≠ "")
    (hfile : env.isFilePresent url = true) (hq : s.commandBuffer = []) :
    installsOf (eventsSince s
        (CommandBuffer.drain env (handleFirmwareUpdateCommand env command deviceKey s)))
      = (if command.autoInstall = some true then [(deviceKey, url)] else [])
    ∧ ∀ (pre post : List Event) (k p : String),
        eventsSince s
            (CommandBuffer.drain env (handleFirmwareUpdateCommand env command deviceKey s))
          = pre ++ Event.install k p :: post →
        Event.makeMessage deviceKey fileReady ∈ pre
        ∧ (∀ message, env.protocol.makeMessage deviceKey fileReady = some message →
            Event.publish message ∈ pre)
        ∧ installsOf pre = [] := by
  obtain ⟨htr, -⟩ :=
    drain_handle_present_trace env s deviceKey command url hType hUrl hne hfile hq
  have hev := eventsSince_of_append htr
  have hnone := installsOf_download_responses env deviceKey url
  rw [hev]
  by_cases ha : command.autoInstall = some true
  · simp only [ha, if_true]
    rw [← List.append_assoc]
    refine ⟨?_, ?_⟩
    · rw [installsOf_append, hnone]
      simp [installsOf]
    · intro pre post k p hsplit
      obtain ⟨hpre, -, -⟩ := split_at_last_install _ deviceKey url hnone pre post k p hsplit
      rw [hpre]
      refine ⟨?_, ?_, hnone⟩
      · simp [responseEvents]
      · intro message hm
        simp [responseEvents, hm]
  · simp only [ha, if_false, List.append_nil]
    refine ⟨hnone, ?_⟩
    intro pre post k p hsplit
    exact absurd hsplit (no_split_without_install _ pre post k p hnone)

/-- Witness of C4 in the sample environment: `dev1` is told to download the present file
`fw.bin` and to install it. -/
theorem url_download_present_install_iff_auto_install_witness :
    installsOf (eventsSince ServiceState.fresh
        (CommandBuffer.drain sampleEnv (handleFirmwareUpdateCommand sampleEnv
          ⟨FirmwareUpdateCommandType.URL_DOWNLOAD, some "fw.bin", some true⟩ "dev1"
          ServiceState.fresh)))
      = [("dev1", "fw.bin")] :=
  (url_download_present_install_iff_auto_install sampleEnv ServiceState.fresh "dev1"
    ⟨FirmwareUpdateCommandType.URL_DOWNLOAD, some "fw.bin", some true⟩ "fw.bin" rfl rfl
    (by decide) (by decide) rfl).1

/-! ### The install step -/

/-- C5, refuted: in the sample environment `dev1` is told to download the present file `fw.bin`
with `autoInstall = true`; the download succeeds with path `fw.bin`, and afterwards
`FirmwareInstaller::install` has not been called with `dev1` and `fw.bin`, while the
service's own install step has. -/
theorem installer_install_not_invoked :
    ¬ (("dev1", "fw.bin") ∈ installerCallsOf (CommandBuffer.drain sampleEnv
        (handleFirmwareUpdateCommand sampleEnv
          ⟨FirmwareUpdateCommandType.URL_DOWNLOAD, some "fw.bin", some true⟩ "dev1"
          ServiceState.fresh)).trace)
    ∧ ("dev1", "fw.bin") ∈ installsOf (CommandBuffer.drain sampleEnv
        (handleFirmwareUpdateCommand sampleEnv
          ⟨FirmwareUpdateCommandType.URL_DOWNLOAD, some "fw.bin", some true⟩ "dev1"
          ServiceState.fresh)).trace := by
  decide

/-- C5, amended: for every URL_DOWNLOAD command with `autoInstall = true` whose download
succeeds with file path `p` for device key `k`, the service's own install step
`FirmwareUpdateService::install` is called once, with `k` and `p`, and
`FirmwareInstaller::install` is not called. -/
theorem url_download_auto_install_calls_own_install_step (env : Env) (s : ServiceState)
    (deviceKey : String) (command : FirmwareUpdateCommand) (url : String)
    (hType : command.type = FirmwareUpdateCommandType.URL_DOWNLOAD)
    (hUrl : command.url = some url) (hne : url ≠ "")
    (hfile : env.isFilePresent url = true) (hq : s.commandBuffer = [])
    (hauto : command.autoInstall = some true) :
    installsOf (eventsSince s
        (CommandBuffer.drain env (handleFirmwareUpdateCommand env command deviceKey s)))
      = [(deviceKey, url)]
    ∧ installerCallsOf (eventsSince s
        (CommandBuffer.drain env (handleFirmwareUpdateCommand env command deviceKey s)))
      = [] := by
  obtain ⟨htr, -⟩ :=
    drain_handle_present_trace env s deviceKey command url hType hUrl hne hfile hq
  rw [eventsSince_of_append htr]
  simp only [hauto, if_true]
  refine ⟨?_, ?_⟩
  · rw [← List.append_assoc, installsOf_append, installsOf_download_responses]
    simp [installsOf]
  · have hd : ∀ l, installerCallsOf (Event.download url :: l) = installerCallsOf l := by
      intro l; simp [installerCallsOf]
    rw [List.cons_append, hd, installerCallsOf_append, installerCallsOf_append,
      installerCallsOf_responseEvents, installerCallsOf_responseEvents]
    simp [installerCallsOf]

/-- Witness of the amended C5 in the sample environment. -/
theorem url_download_auto_install_calls_own_install_step_witness :
    installerCallsOf (eventsSince ServiceState.fresh
        (CommandBuffer.drain sampleEnv (handleFirmwareUpdateCommand sampleEnv
          ⟨FirmwareUpdateCommandType.URL_DOWNLOAD, some "fw.bin", some true⟩ "dev1"
          ServiceState.fresh)))
      = [] :=
  (url_download_auto_install_calls_own_install_step sampleEnv ServiceState.fresh "dev1"
    ⟨FirmwareUpdateCommandType.URL_DOWNLOAD, some "fw.bin", some true⟩ "fw.bin" rfl rfl
    (by decide) (by decide) rfl rfl).2

/-! ### FILE_UPLOAD -/

/-- C6: for every device key and every FILE_UPLOAD command, whatever its url and autoInstall
fields, `handleFirmwareUpdateCommand` records no call at all (no download, no install step, no
response, no publish) and leaves the command buffer as it was; it only logs a warning. -/
theorem handleFirmwareUpdateCommand_file_upload (env : Env) (s : ServiceState)
    (deviceKey : String) (url : Option String) (autoInstall : Option Bool) :
    handleFirmwareUpdateCommand env ⟨FirmwareUpdateCommandType.FILE_UPLOAD, url, autoInstall⟩
        deviceKey s
      = s.warn "Unsupported subdevice download protocol: FILE_UPLOAD"
    ∧ (handleFirmwareUpdateCommand env ⟨FirmwareUpdateCommandType.FILE_UPLOAD, url, autoInstall⟩
        deviceKey s).trace = s.trace
    ∧ downloadsOf (eventsSince s (handleFirmwareUpdateCommand env
        ⟨FirmwareUpdateCommandType.FILE_UPLOAD, url, autoInstall⟩ deviceKey s)) = []
    ∧ installsOf (eventsSince s (handleFirmwareUpdateCommand env
        ⟨FirmwareUpdateCommandType.FILE_UPLOAD, url, autoInstall⟩ deviceKey s)) = []
    ∧ responsesOf (eventsSince s (handleFirmwareUpdateCommand env
        ⟨FirmwareUpdateCommandType.FILE_UPLOAD, url, autoInstall⟩ deviceKey s)) = []
    ∧ publishedOf (eventsSince s (handleFirmwareUpdateCommand env
        ⟨FirmwareUpdateCommandType.FILE_UPLOAD, url, autoInstall⟩ deviceKey s)) = []
    ∧ (handleFirmwareUpdateCommand env ⟨FirmwareUpdateCommandType.FILE_UPLOAD, url, autoInstall⟩
        deviceKey s).commandBuffer = s.commandBuffer := by
  have h : handleFirmwareUpdateCommand env
      ⟨FirmwareUpdateCommandType.FILE_UPLOAD, url, autoInstall⟩ deviceKey s
      = s.warn "Unsupported subdevice download protocol: FILE_UPLOAD" := rfl
  have hev : eventsSince s (s.warn "Unsupported subdevice download protocol: FILE_UPLOAD")
      = [] := by
    simp [eventsSince, ServiceState.warn]
  rw [h, hev]
  exact ⟨rfl, rfl, rfl, rfl, rfl, rfl, rfl⟩

/-! ### A second URL_DOWNLOAD for the same device -/

/-- C7, refuted: in the sample environment `dev1` is told twice to download the present file
`fw.bin`.  After the first command a file is ready for `dev1` (its FILE_READY closure is
queued); the second command starts a second download all the same, queues a second closure,
and FILE_READY is issued twice once the queue is drained. -/
theorem second_url_download_starts_second_download :
    (handleFirmwareUpdateCommand sampleEnv
        ⟨FirmwareUpdateCommandType.URL_DOWNLOAD, some "fw.bin", some false⟩ "dev1"
        ServiceState.fresh).commandBuffer = [Command.completed "fw.bin" "dev1" false]
    ∧ ¬ (downloadsOf (eventsSince
        (handleFirmwareUpdateCommand sampleEnv
          ⟨FirmwareUpdateCommandType.URL_DOWNLOAD, some "fw.bin", some false⟩ "dev1"
          ServiceState.fresh)
        (handleFirmwareUpdateCommand sampleEnv
          ⟨FirmwareUpdateCommandType.URL_DOWNLOAD, some "fw.bin", some false⟩ "dev1"
          (handleFirmwareUpdateCommand sampleEnv
            ⟨FirmwareUpdateCommandType.URL_DOWNLOAD, some "fw.bin", some false⟩ "dev1"
            ServiceState.fresh))) = [])
    ∧ downloadsOf (handleFirmwareUpdateCommand sampleEnv
        ⟨FirmwareUpdateCommandType.URL_DOWNLOAD, some "fw.bin", some false⟩ "dev1"
        (handleFirmwareUpdateCommand sampleEnv
          ⟨FirmwareUpdateCommandType.URL_DOWNLOAD, some "fw.bin", some false⟩ "dev1"
          ServiceState.fresh)).trace = ["fw.bin", "fw.bin"]
    ∧ (responsesOf (CommandBuffer.drain sampleEnv (handleFirmwareUpdateCommand sampleEnv
        ⟨FirmwareUpdateCommandType.URL_DOWNLOAD, some "fw.bin", some false⟩ "dev1"
        (handleFirmwareUpdateCommand sampleEnv
          ⟨FirmwareUpdateCommandType.URL_DOWNLOAD, some "fw.bin", some false⟩ "dev1"
          ServiceState.fresh))).trace).filter
        (fun r => decide (r.2.status = FirmwareUpdateResponse.Status.FILE_READY))
      = [("dev1", fileReady), ("dev1", fileReady)] := by
  decide

/-- C7, amended: the service keeps no per-device session.  When a URL_DOWNLOAD command with a
non-empty url arrives for a device key for which an earlier URL_DOWNLOAD command has been
handled, it is not rejected: it starts its own download, and what it records and enqueues is
what it records and enqueues on a fresh service.  The first command is unaffected: once the
queue is drained, the events are those of handling the first command, those of handling the
second, those of the first command's queued closure and those of the second's, each as it is
without the other command. -/
theorem url_download_ignores_earlier_commands (env : Env) (s : ServiceState)
    (deviceKey : String) (first second : FirmwareUpdateCommand) (firstUrl secondUrl : String)
    (hFirstType : first.type = FirmwareUpdateCommandType.URL_DOWNLOAD)
    (hFirstUrl : first.url = some firstUrl) (hFirstNe : firstUrl ≠ "")
    (hSecondType : second.type = FirmwareUpdateCommandType.URL_DOWNLOAD)
    (hSecondUrl : second.url = some secondUrl) (hSecondNe : secondUrl ≠ "")
    (hq : s.commandBuffer = []) :
    downloadsOf (eventsSince (handleFirmwareUpdateCommand env first deviceKey s)
        (handleFirmwareUpdateCommand env second deviceKey
          (handleFirmwareUpdateCommand env first deviceKey s)))
      = [secondUrl]
    ∧ eventsSince (handleFirmwareUpdateCommand env first deviceKey s)
        (handleFirmwareUpdateCommand env second deviceKey
          (handleFirmwareUpdateCommand env first deviceKey s))
      = eventsSince ServiceState.fresh
          (handleFirmwareUpdateCommand env second deviceKey ServiceState.fresh)
    ∧ (handleFirmwareUpdateCommand env second deviceKey
        (handleFirmwareUpdateCommand env first deviceKey s)).commandBuffer
      = (handleFirmwareUpdateCommand env first deviceKey s).commandBuffer
        ++ (handleFirmwareUpdateCommand env second deviceKey ServiceState.fresh).commandBuffer
    ∧ eventsSince s (CommandBuffer.drain env (handleFirmwareUpdateCommand env second deviceKey
        (handleFirmwareUpdateCommand env first deviceKey s)))
      = eventsSince s (handleFirmwareUpdateCommand env first deviceKey s)
        ++ eventsSince ServiceState.fresh
            (handleFirmwareUpdateCommand env second deviceKey ServiceState.fresh)
        ++ eventsSince (handleFirmwareUpdateCommand env first deviceKey s)
            (CommandBuffer.drain env (handleFirmwareUpdateCommand env first deviceKey s))
        ++ eventsSince (handleFirmwareUpdateCommand env second deviceKey ServiceState.fresh)
            (CommandBuffer.drain env
              (handleFirmwareUpdateCommand env second deviceKey ServiceState.fresh)) := by
  have t1 := handle_with_url_trace env s deviceKey first firstUrl hFirstType hFirstUrl hFirstNe
  have q1 := handle_with_url_commandBuffer env s deviceKey first firstUrl hFirstType hFirstUrl
    hFirstNe
  rw [hq, List.nil_append] at q1
  have t2 := handle_with_url_trace env (handleFirmwareUpdateCommand env first deviceKey s)
    deviceKey second secondUrl hSecondType hSecondUrl hSecondNe
  have q2 := handle_with_url_commandBuffer env (handleFirmwareUpdateCommand env first deviceKey s)
    deviceKey second secondUrl hSecondType hSecondUrl hSecondNe
  have tf := handle_with_url_trace env ServiceState.fresh deviceKey second secondUrl hSecondType
    hSecondUrl hSecondNe
  have qf := handle_with_url_commandBuffer env ServiceState.fresh deviceKey second secondUrl
    hSecondType hSecondUrl hSecondNe
  have hfresh : ServiceState.fresh.trace = [] := rfl
  have hfreshq : ServiceState.fresh.commandBuffer = [] := rfl
  rw [hfresh, List.nil_append] at tf
  rw [hfreshq, List.nil_append] at qf
  have e12 := eventsSince_of_append t2
  have ef : eventsSince ServiceState.fresh
      (handleFirmwareUpdateCommand env second deviceKey ServiceState.fresh)
      = Event.download secondUrl :: responseEvents env deviceKey errorFileSystem := by
    apply eventsSince_of_append
    rw [tf]
    rfl
  have d1 := drain_completed_trace env (handleFirmwareUpdateCommand env first deviceKey s)
    (by rw [q1]; exact urlDownload_queues_completed env deviceKey firstUrl _)
  have df := drain_completed_trace env
    (handleFirmwareUpdateCommand env second deviceKey ServiceState.fresh)
    (by rw [qf]; exact urlDownload_queues_completed env deviceKey secondUrl _)
  have d2 := drain_completed_trace env (handleFirmwareUpdateCommand env second deviceKey
    (handleFirmwareUpdateCommand env first deviceKey s))
    (by
      rw [q2, q1]
      intro command hmem
      rcases List.mem_append.mp hmem with h | h
      · exact urlDownload_queues_completed env deviceKey firstUrl _ command h
      · exact urlDownload_queues_completed env deviceKey secondUrl _ command h)
  refine ⟨?_, ?_, ?_, ?_⟩
  · rw [e12]
    have hd : ∀ l, downloadsOf (Event.download secondUrl :: l) = secondUrl :: downloadsOf l := by
      intro l; simp [downloadsOf]
    rw [hd, downloadsOf_responseEvents]
  · rw [e12, ef]
  · rw [q2, qf]
  · rw [eventsSince_of_append d1, eventsSince_of_append df, eventsSince_of_append t1, ef]
    apply eventsSince_of_append
    rw [d2, t2, t1, q2, queuedEvents_append, q1, qf]
    simp [List.append_assoc]

/-- Witness of the amended C7 in the sample environment: the second of two URL_DOWNLOAD
commands for `dev1` starts its own download. -/
theorem url_download_ignores_earlier_commands_witness :
    downloadsOf (eventsSince
        (handleFirmwareUpdateCommand sampleEnv
          ⟨FirmwareUpdateCommandType.URL_DOWNLOAD, some "fw.bin", some false⟩ "dev1"
          ServiceState.fresh)
        (handleFirmwareUpdateCommand sampleEnv
          ⟨FirmwareUpdateCommandType.URL_DOWNLOAD, some "fw.bin", some false⟩ "dev1"
          (handleFirmwareUpdateCommand sampleEnv
            ⟨FirmwareUpdateCommandType.URL_DOWNLOAD, some "fw.bin", some false⟩ "dev1"
            ServiceState.fresh)))
      = ["fw.bin"] :=
  (url_download_ignores_earlier_commands sampleEnv ServiceState.fresh "dev1"
    ⟨FirmwareUpdateCommandType.URL_DOWNLOAD, some "fw.bin", some false⟩
    ⟨FirmwareUpdateCommandType.URL_DOWNLOAD, some "fw.bin", some false⟩ "fw.bin" "fw.bin"
    rfl rfl (by decide) rfl rfl (by decide) rfl).1

/-! ### A failed download -/

/-- C8: for every downloader error code `e` and device key `k`, `downloadFailed e k` issues
exactly one response, for `k`, with status ERROR; its error code is FILE_SYSTEM_ERROR when `e`
is FILE_DOES_NOT_EXIST and UNSPECIFIED_ERROR for every other value of `e`.  The one message the
protocol builds for that response is what is handed to the connectivity service, and nothing
is enqueued. -/
theorem downloadFailed_one_error_response (env : Env) (s : ServiceState)
    (errorCode : LocalFileDownloader.ErrorCode) (deviceKey : String) :
    responsesOf (eventsSince s (downloadFailed env errorCode deviceKey s))
      = [(deviceKey, ⟨FirmwareUpdateResponse.Status.ERROR,
          some (if errorCode = LocalFileDownloader.ErrorCode.FILE_DOES_NOT_EXIST
            then FirmwareUpdateResponse.ErrorCode.FILE_SYSTEM_ERROR
            else FirmwareUpdateResponse.ErrorCode.UNSPECIFIED_ERROR)⟩)]
    ∧ publishedOf (eventsSince s (downloadFailed env errorCode deviceKey s))
      = (env.protocol.makeMessage deviceKey ⟨FirmwareUpdateResponse.Status.ERROR,
          some (if errorCode = LocalFileDownloader.ErrorCode.FILE_DOES_NOT_EXIST
            then FirmwareUpdateResponse.ErrorCode.FILE_SYSTEM_ERROR
            else FirmwareUpdateResponse.ErrorCode.UNSPECIFIED_ERROR)⟩).toList
    ∧ (downloadFailed env errorCode deviceKey s).trace
      = s.trace ++ responseEvents env deviceKey ⟨FirmwareUpdateResponse.Status.ERROR,
          some (if errorCode = LocalFileDownloader.ErrorCode.FILE_DOES_NOT_EXIST
            then FirmwareUpdateResponse.ErrorCode.FILE_SYSTEM_ERROR
            else FirmwareUpdateResponse.ErrorCode.UNSPECIFIED_ERROR)⟩
    ∧ (downloadFailed env errorCode deviceKey s).commandBuffer = s.commandBuffer := by
  have htr : (downloadFailed env errorCode deviceKey s).trace
      = s.trace ++ responseEvents env deviceKey ⟨FirmwareUpdateResponse.Status.ERROR,
          some (if errorCode = LocalFileDownloader.ErrorCode.FILE_DOES_NOT_EXIST
            then FirmwareUpdateResponse.ErrorCode.FILE_SYSTEM_ERROR
            else FirmwareUpdateResponse.ErrorCode.UNSPECIFIED_ERROR)⟩ := by
    cases errorCode <;> simp [downloadFailed, sendResponse_trace]
  have hcb : (downloadFailed env errorCode deviceKey s).commandBuffer = s.commandBuffer := by
    cases errorCode <;> simp [downloadFailed, sendResponse_commandBuffer]
  rw [eventsSince_of_append htr, responsesOf_responseEvents, publishedOf_responseEvents]
  exact ⟨rfl, rfl, htr, hcb⟩

/-! ### Inbound messages -/

/-- C9: every inbound message that the protocol does not recognise as a firmware update
message, or that it recognises but cannot decode into a command, is dropped by
`messageReceived`: nothing is enqueued and no call is recorded (no response, no publish, no
download, no install), and with nothing else waiting the worker has nothing to run. -/
theorem messageReceived_drops_unrecognised_or_undecodable (env : Env) (s : ServiceState)
    (message : Message)
    (h : env.protocol.isFirmwareUpdateMessage message = false
      ∨ env.protocol.makeFirmwareUpdateCommand message = none) :
    (messageReceived env message s).commandBuffer = s.commandBuffer
    ∧ (messageReceived env message s).trace = s.trace
    ∧ eventsSince s (messageReceived env message s) = []
    ∧ (s.commandBuffer = [] →
        CommandBuffer.drain env (messageReceived env message s)
          = messageReceived env message s) := by
  have hkeep : (messageReceived env message s).commandBuffer = s.commandBuffer
      ∧ (messageReceived env message s).trace = s.trace := by
    unfold messageReceived
    by_cases hrec : env.protocol.isFirmwareUpdateMessage message = true
    · rcases h with h | h
      · rw [h] at hrec
        exact absurd hrec (by decide)
      · simp [hrec, h, ServiceState.warn]
    · simp [hrec, ServiceState.warn]
  refine ⟨hkeep.1, hkeep.2, ?_, ?_⟩
  · simp [eventsSince, hkeep.2]
  · intro hq
    exact drainFuel_nil env _ _ (hkeep.1.trans hq)

/-- Witness of C9 in the sample environment: a message on a channel the protocol does not
recognise. -/
theorem messageReceived_drops_unrecognised_or_undecodable_witness :
    (messageReceived sampleEnv ⟨"other/dev1", "url:fw.bin"⟩ ServiceState.fresh).commandBuffer
      = ServiceState.fresh.commandBuffer
    ∧ (messageReceived sampleEnv ⟨"other/dev1", "url:fw.bin"⟩ ServiceState.fresh).trace
      = ServiceState.fresh.trace :=
  ⟨(messageReceived_drops_unrecognised_or_undecodable sampleEnv ServiceState.fresh
      ⟨"other/dev1", "url:fw.bin"⟩ (Or.inl (by decide))).1,
    (messageReceived_drops_unrecognised_or_undecodable sampleEnv ServiceState.fresh
      ⟨"other/dev1", "url:fw.bin"⟩ (Or.inl (by decide))).2.1⟩

/-- C10, evaluated where it fails: in the sample environment the message on channel `fw/` is a
firmware update message that decodes (to a URL_DOWNLOAD with an empty url) and whose device key
is empty.  `messageReceived` logs the warning and enqueues the command all the same; the worker
then handles it and an ERROR/UNSPECIFIED_ERROR response is published for the empty device
key. -/
theorem messageReceived_empty_device_key_is_enqueued :
    sampleEnv.protocol.isFirmwareUpdateMessage ⟨"fw/", "url:"⟩ = true
    ∧ sampleEnv.protocol.makeFirmwareUpdateCommand ⟨"fw/", "url:"⟩
      = some ⟨FirmwareUpdateCommandType.URL_DOWNLOAD, some "", none⟩
    ∧ sampleEnv.protocol.extractDeviceKeyFromChannel "fw/" = ""
    ∧ (messageReceived sampleEnv ⟨"fw/", "url:"⟩ ServiceState.fresh).commandBuffer
      = [Command.handle ⟨FirmwareUpdateCommandType.URL_DOWNLOAD, some "", none⟩ ""]
    ∧ (messageReceived sampleEnv ⟨"fw/", "url:"⟩ ServiceState.fresh).warnings
      = ["Unable to extract device key from channel: fw/"]
    ∧ responsesOf (CommandBuffer.drain sampleEnv
        (messageReceived sampleEnv ⟨"fw/", "url:"⟩ ServiceState.fresh)).trace
      = [("", errorUnspecified)]
    ∧ publishedOf (CommandBuffer.drain sampleEnv
        (messageReceived sampleEnv ⟨"fw/", "url:"⟩ ServiceState.fresh)).trace
      = [⟨"", "ERROR 0"⟩] := by
  decide

/-! ### sendResponse -/

/-- C11: for every response and device key, `sendResponse` calls the connectivity service's
publish at most once: exactly once, with the message built, when the protocol builds a message,
and not at all when it builds none.  When publish returns failure the call is not repeated:
the only events are the request to the protocol and that one publish call, a warning is logged,
and in every case no further response is issued, no download or install step is called and
nothing is enqueued. -/
theorem sendResponse_publishes_at_most_once (env : Env) (s : ServiceState)
    (response : FirmwareUpdateResponse) (deviceKey : String) :
    (publishedOf (eventsSince s (sendResponse env response deviceKey s))).length ≤ 1
    ∧ (∀ message, env.protocol.makeMessage deviceKey response = some message →
        publishedOf (eventsSince s (sendResponse env response deviceKey s)) = [message])
    ∧ (env.protocol.makeMessage deviceKey response = none →
        publishedOf (eventsSince s (sendResponse env response deviceKey s)) = [])
    ∧ (∀ message, env.protocol.makeMessage deviceKey response = some message →
        env.publish message = false →
        sendResponse env response deviceKey s
          = ⟨s.trace ++ [Event.makeMessage deviceKey response, Event.publish message],
              s.commandBuffer,
              s.warnings ++ ["Firmware update response not published for device: "
                ++ deviceKey]⟩)
    ∧ responsesOf (eventsSince s (sendResponse env response deviceKey s))
      = [(deviceKey, response)]
    ∧ downloadsOf (eventsSince s (sendResponse env response deviceKey s)) = []
    ∧ installsOf (eventsSince s (sendResponse env response deviceKey s)) = []
    ∧ installerCallsOf (eventsSince s (sendResponse env response deviceKey s)) = []
    ∧ (sendResponse env response deviceKey s).commandBuffer = s.commandBuffer := by
  have hev := eventsSince_of_append (sendResponse_trace env response deviceKey s)
  rw [hev, publishedOf_responseEvents, responsesOf_responseEvents, downloadsOf_responseEvents,
    installsOf_responseEvents, installerCallsOf_responseEvents]
  refine ⟨?_, ?_, ?_, ?_, rfl, rfl, rfl, rfl, sendResponse_commandBuffer env response deviceKey s⟩
  · cases env.protocol.makeMessage deviceKey response <;> simp
  · intro message hm
    rw [hm]
    rfl
  · intro hm
    rw [hm]
    rfl
  · intro message hm hfail
    unfold sendResponse
    simp [hm, hfail, ServiceState.record, ServiceState.warn]

/-- Witness of C11 with a connectivity service that fails to publish: the FILE_READY response
for `dev1` is handed to it once and that is all. -/
theorem sendResponse_publishes_at_most_once_witness :
    sendResponse offlineEnv fileReady "dev1" ServiceState.fresh
      = ⟨ServiceState.fresh.trace
            ++ [Event.makeMessage "dev1" fileReady, Event.publish ⟨"dev1", "FILE_READY"⟩],
          ServiceState.fresh.commandBuffer,
          ServiceState.fresh.warnings
            ++ ["Firmware update response not published for device: " ++ "dev1"]⟩ :=
  (sendResponse_publishes_at_most_once offlineEnv ServiceState.fresh fileReady "dev1").2.2.2.1
    ⟨"dev1", "FILE_READY"⟩ rfl rfl

/-! ### INSTALL, ABORT and unknown command types -/

/-- C13: for every device key, handling a command of type INSTALL or ABORT does nothing at all:
the state of the service is the one before (no response, no publish, no download, no install
step, no installer call, nothing enqueued, not even a warning).  A command whose type is none
of the four known ones issues exactly one response, ERROR with UNSPECIFIED_ERROR, for the
device key, and does nothing else. -/
theorem handleFirmwareUpdateCommand_install_abort_other (env : Env) (s : ServiceState)
    (deviceKey : String) (url : Option String) (autoInstall : Option Bool) (raw : Nat) :
    handleFirmwareUpdateCommand env ⟨FirmwareUpdateCommandType.INSTALL, url, autoInstall⟩
        deviceKey s = s
    ∧ handleFirmwareUpdateCommand env ⟨FirmwareUpdateCommandType.ABORT, url, autoInstall⟩
        deviceKey s = s
    ∧ eventsSince s (handleFirmwareUpdateCommand env
        ⟨FirmwareUpdateCommandType.INSTALL, url, autoInstall⟩ deviceKey s) = []
    ∧ eventsSince s (handleFirmwareUpdateCommand env
        ⟨FirmwareUpdateCommandType.ABORT, url, autoInstall⟩ deviceKey s) = []
    ∧ responsesOf (eventsSince s (handleFirmwareUpdateCommand env
        ⟨FirmwareUpdateCommandType.other raw, url, autoInstall⟩ deviceKey s))
      = [(deviceKey, errorUnspecified)]
    ∧ publishedOf (eventsSince s (handleFirmwareUpdateCommand env
        ⟨FirmwareUpdateCommandType.other raw, url, autoInstall⟩ deviceKey s))
      = (env.protocol.makeMessage deviceKey errorUnspecified).toList
    ∧ downloadsOf (eventsSince s (handleFirmwareUpdateCommand env
        ⟨FirmwareUpdateCommandType.other raw, url, autoInstall⟩ deviceKey s)) = []
    ∧ installsOf (eventsSince s (handleFirmwareUpdateCommand env
        ⟨FirmwareUpdateCommandType.other raw, url, autoInstall⟩ deviceKey s)) = []
    ∧ (handleFirmwareUpdateCommand env
        ⟨FirmwareUpdateCommandType.other raw, url, autoInstall⟩ deviceKey s).commandBuffer
      = s.commandBuffer := by
  have hnone : eventsSince s s = [] := by simp [eventsSince]
  have hother : handleFirmwareUpdateCommand env
      ⟨FirmwareUpdateCommandType.other raw, url, autoInstall⟩ deviceKey s
      = sendResponse env errorUnspecified deviceKey s := rfl
  have hinstall : handleFirmwareUpdateCommand env
      ⟨FirmwareUpdateCommandType.INSTALL, url, autoInstall⟩ deviceKey s = s := rfl
  have habort : handleFirmwareUpdateCommand env
      ⟨FirmwareUpdateCommandType.ABORT, url, autoInstall⟩ deviceKey s = s := rfl
  have hev := eventsSince_of_append (sendResponse_trace env errorUnspecified deviceKey s)
  rw [hinstall, habort, hother, hnone, hev, responsesOf_responseEvents,
    publishedOf_responseEvents, downloadsOf_responseEvents, installsOf_responseEvents]
  exact ⟨rfl, rfl, rfl, rfl, rfl, rfl, rfl, rfl,
    sendResponse_commandBuffer env errorUnspecified deviceKey s⟩

/-! ### URL_DOWNLOAD of a file that does not exist -/

/-- Handling a URL_DOWNLOAD of an absent file: the download is requested and
ERROR/FILE_SYSTEM_ERROR is issued; nothing is enqueued. -/
theorem handle_absent (env : Env) (s : ServiceState) (deviceKey : String)
    (command : FirmwareUpdateCommand) (url : String)
    (hType : command.type = FirmwareUpdateCommandType.URL_DOWNLOAD)
    (hUrl : command.url = some url) (hne : url ≠ "")
    (hfile : env.isFilePresent url = false) :
    (handleFirmwareUpdateCommand env command deviceKey s).trace
      = s.trace ++ Event.download url :: responseEvents env deviceKey errorFileSystem
    ∧ (handleFirmwareUpdateCommand env command deviceKey s).commandBuffer
      = s.commandBuffer := by
  refine ⟨handle_with_url_trace env s deviceKey command url hType hUrl hne, ?_⟩
  rw [handle_with_url_commandBuffer env s deviceKey command url hType hUrl hne]
  simp [hfile]

/-- C14: for every device key `k` and every URL_DOWNLOAD command with a non-empty url naming a
file that does not exist, handling the command and draining the command buffer issues exactly
one response, for `k`: ERROR with FILE_SYSTEM_ERROR (the one message the protocol builds for it
is what is handed to the connectivity service).  No FILE_READY response is issued, the install
step is never called whatever `autoInstall` says, and nothing is left in or added to the
queue.  The built-in downloader never reports UNSPECIFIED_ERROR: what `download` does depends
on its failure callback only through that callback at FILE_DOES_NOT_EXIST. -/
theorem url_download_absent_one_file_system_error (env : Env) (s : ServiceState)
    (deviceKey : String) (command : FirmwareUpdateCommand) (url : String)
    (hType : command.type = FirmwareUpdateCommandType.URL_DOWNLOAD)
    (hUrl : command.url = some url) (hne : url ≠ "")
    (hfile : env.isFilePresent url = false) (hq : s.commandBuffer = []) :
    responsesOf (eventsSince s
        (CommandBuffer.drain env (handleFirmwareUpdateCommand env command deviceKey s)))
      = [(deviceKey, errorFileSystem)]
    ∧ publishedOf (eventsSince s
        (CommandBuffer.drain env (handleFirmwareUpdateCommand env command deviceKey s)))
      = (env.protocol.makeMessage deviceKey errorFileSystem).toList
    ∧ (∀ r ∈ responsesOf (eventsSince s
          (CommandBuffer.drain env (handleFirmwareUpdateCommand env command deviceKey s))),
        r.2.status ≠ FirmwareUpdateResponse.Status.FILE_READY)
    ∧ installsOf (eventsSince s
        (CommandBuffer.drain env (handleFirmwareUpdateCommand env command deviceKey s))) = []
    ∧ installerCallsOf (eventsSince s
        (CommandBuffer.drain env (handleFirmwareUpdateCommand env command deviceKey s))) = []
    ∧ (handleFirmwareUpdateCommand env command deviceKey s).commandBuffer = []
    ∧ CommandBuffer.drain env (handleFirmwareUpdateCommand env command deviceKey s)
      = handleFirmwareUpdateCommand env command deviceKey s
    ∧ (∀ (filePath : String) (onSuccess : String → ServiceState → ServiceState)
        (onFail onFail' : LocalFileDownloader.ErrorCode → ServiceState → ServiceState)
        (t : ServiceState),
        onFail LocalFileDownloader.ErrorCode.FILE_DOES_NOT_EXIST
          = onFail' LocalFileDownloader.ErrorCode.FILE_DOES_NOT_EXIST →
        LocalFileDownloader.download env filePath onSuccess onFail t
          = LocalFileDownloader.download env filePath onSuccess onFail' t) := by
  obtain ⟨htr, hcb⟩ := handle_absent env s deviceKey command url hType hUrl hne hfile
  rw [hq] at hcb
  have hdrain : CommandBuffer.drain env (handleFirmwareUpdateCommand env command deviceKey s)
      = handleFirmwareUpdateCommand env command deviceKey s :=
    drainFuel_nil env _ _ hcb
  have hev := eventsSince_of_append htr
  have hresp : responsesOf (Event.download url :: responseEvents env deviceKey errorFileSystem)
      = [(deviceKey, errorFileSystem)] := by
    have hd : ∀ l, responsesOf (Event.download url :: l) = responsesOf l := by
      intro l; simp [responsesOf]
    rw [hd, responsesOf_responseEvents]
  have hpub : publishedOf (Event.download url :: responseEvents env deviceKey errorFileSystem)
      = (env.protocol.makeMessage deviceKey errorFileSystem).toList := by
    have hd : ∀ l, publishedOf (Event.download url :: l) = publishedOf l := by
      intro l; simp [publishedOf]
    rw [hd, publishedOf_responseEvents]
  have hinst : installsOf (Event.download url :: responseEvents env deviceKey errorFileSystem)
      = [] := by
    have hd : ∀ l, installsOf (Event.download url :: l) = installsOf l := by
      intro l; simp [installsOf]
    rw [hd, installsOf_responseEvents]
  have hcalls : installerCallsOf
      (Event.download url :: responseEvents env deviceKey errorFileSystem) = [] := by
    have hd : ∀ l, installerCallsOf (Event.download url :: l) = installerCallsOf l := by
      intro l; simp [installerCallsOf]
    rw [hd, installerCallsOf_responseEvents]
  rw [hdrain, hev, hresp, hpub, hinst, hcalls]
  refine ⟨rfl, rfl, ?_, rfl, rfl, hcb, rfl, ?_⟩
  · intro r hr
    rw [List.mem_singleton] at hr
    rw [hr]
    simp
  · intro filePath onSuccess onFail onFail' t hsame
    unfold LocalFileDownloader.download
    rw [hsame]

/-- Witness of C14 in the sample environment: `dev1` is told to download and install
`missing.bin`, which is not there. -/
theorem url_download_absent_one_file_system_error_witness :
    responsesOf (eventsSince ServiceState.fresh
        (CommandBuffer.drain sampleEnv (handleFirmwareUpdateCommand sampleEnv
          ⟨FirmwareUpdateCommandType.URL_DOWNLOAD, some "missing.bin", some true⟩ "dev1"
          ServiceState.fresh)))
      = [("dev1", errorFileSystem)] :=
  (url_download_absent_one_file_system_error sampleEnv ServiceState.fresh "dev1"
    ⟨FirmwareUpdateCommandType.URL_DOWNLOAD, some "missing.bin", some true⟩ "missing.bin"
    rfl rfl (by decide) (by decide) rfl).1

end wolkabout
